import Mathlib

/-!
Verification of the battery report module (`battery_report/battery_report.py`).

The module processes an EV battery diagnostic snapshot: it computes the
State of Health (SoH), runs three anomaly detectors, and assembles a
structured health report.  Python floats are modelled as exact rationals
(`ℚ`); `round(x, 2)` is modelled as rounding to two decimal places with
ties going to the even hundredth, matching Python's banker's rounding.
The diagnostic dictionary is modelled as a structure whose four
computation-relevant entries are `Option`-valued, so that
`dict.get(key, default)` becomes `Option.getD`.
-/

/-- A single cell reading; only `voltage` and `temperature` are read by the
analyzer. -/
structure CellReading where
  voltage : ℚ
  temperature : ℚ
deriving DecidableEq, Repr

/-- The raw diagnostic snapshot dictionary.  `vehicle_id` and `timestamp`
are stored but never read by any computation.  The other four entries are
optional: `diagnostic_data.get(k, default)` supplies a default when the key
is absent. -/
structure DiagnosticData where
  vehicle_id : String
  timestamp : String
  cells : Option (List CellReading)
  cycle_count : Option ℤ
  nominal_capacity_kwh : Option ℚ
  current_capacity_kwh : Option ℚ
deriving DecidableEq, Repr

/-- The state of a `BatteryReport` instance after `__init__` ran: the four
fields extracted from the dictionary with their defaults. -/
structure BatteryReport where
  cells : List CellReading
  cycle_count : ℤ
  nominal_capacity : ℚ
  current_capacity : ℚ
deriving DecidableEq, Repr

/-- `BatteryReport.__init__`: extract the four fields, defaulting a missing
`cells` to `[]` and the three numeric fields to `0`. -/
def BatteryReport.ofData (d : DiagnosticData) : BatteryReport where
  cells := d.cells.getD []
  cycle_count := d.cycle_count.getD 0
  nominal_capacity := d.nominal_capacity_kwh.getD 0
  current_capacity := d.current_capacity_kwh.getD 0

/-- `VOLTAGE_IMBALANCE_THRESHOLD = 0.05` (50 mV). -/
def VOLTAGE_IMBALANCE_THRESHOLD : ℚ := 0.05

/-- `OVERHEATING_THRESHOLD = 45.0` (°C). -/
def OVERHEATING_THRESHOLD : ℚ := 45.0

/-- `LOW_HEALTH_THRESHOLD = 80.0` (%). -/
def LOW_HEALTH_THRESHOLD : ℚ := 80.0

/-- Round a rational to the nearest integer, ties to even (Python's
`round` on exact values). -/
def roundHalfToEven (q : ℚ) : ℤ :=
  let f := q.floor
  if q - f < 1 / 2 then f
  else if q - f > 1 / 2 then f + 1
  else if f % 2 = 0 then f else f + 1

/-- Python's `round(q, 2)`: round to two decimal places, ties to even. -/
def round2 (q : ℚ) : ℚ := (roundHalfToEven (q * 100) : ℚ) / 100

/-- `calculate_state_of_health`: `0.0` when the nominal capacity is `0`,
otherwise `(current / nominal) * 100` rounded to two decimals. -/
def BatteryReport.calculate_state_of_health (b : BatteryReport) : ℚ :=
  if b.nominal_capacity = 0 then 0
  else round2 (b.current_capacity / b.nominal_capacity * 100)

/-- `detect_voltage_imbalance`: `False` on an empty cell list, otherwise
whether `max(voltages) - min(voltages)` strictly exceeds the threshold. -/
def BatteryReport.detect_voltage_imbalance (b : BatteryReport) : Bool :=
  match b.cells.map (fun c => c.voltage) with
  | [] => false
  | v :: vs => decide (vs.foldl max v - vs.foldl min v > VOLTAGE_IMBALANCE_THRESHOLD)

/-- `detect_overheating`: `False` on an empty cell list, otherwise whether
some cell's temperature strictly exceeds the threshold. -/
def BatteryReport.detect_overheating (b : BatteryReport) : Bool :=
  if b.cells.isEmpty then false
  else b.cells.any (fun c => decide (c.temperature > OVERHEATING_THRESHOLD))

/-- `detect_low_health`: whether the supplied SoH is strictly below the
threshold.  Takes `self` like the Python method but reads no field of it. -/
def BatteryReport.detect_low_health (_b : BatteryReport) (soh : ℚ) : Bool :=
  decide (soh < LOW_HEALTH_THRESHOLD)

/-- `detect_anomalies`: run the three detectors in order and append one
fixed label per detector that fires. -/
def BatteryReport.detect_anomalies (b : BatteryReport) (soh : ℚ) : List String :=
  (if b.detect_voltage_imbalance then ["Voltage imbalance detected"] else []) ++
  (if b.detect_overheating then ["Overheating detected"] else []) ++
  (if b.detect_low_health soh then ["Low State of Health"] else [])

/-- The structured report returned by `generate_report`: exactly the three
keys `battery_soh`, `cycle_count`, `anomalies`. -/
structure HealthReport where
  battery_soh : ℚ
  cycle_count : ℤ
  anomalies : List String
deriving DecidableEq, Repr

/-- `generate_report`: compute the SoH once, feed it to the anomaly step,
copy the cycle count, and assemble the report. -/
def BatteryReport.generate_report (b : BatteryReport) : HealthReport :=
  let soh := b.calculate_state_of_health
  let anomalies := b.detect_anomalies soh
  { battery_soh := soh, cycle_count := b.cycle_count, anomalies := anomalies }

/-- C1: `generate_report` returns exactly the three fields, with
`battery_soh` the value of `calculate_state_of_health`, `cycle_count`
copied verbatim, and `anomalies` the result of `detect_anomalies` applied
to that same SoH value. -/
theorem generate_report_spec (b : BatteryReport) :
    b.generate_report =
      { battery_soh := b.calculate_state_of_health,
        cycle_count := b.cycle_count,
        anomalies := b.detect_anomalies b.calculate_state_of_health } := rfl

/-- The three threshold constants as plain rationals. -/
lemma VOLTAGE_IMBALANCE_THRESHOLD_eq : VOLTAGE_IMBALANCE_THRESHOLD = 1 / 20 := by
  norm_num [VOLTAGE_IMBALANCE_THRESHOLD]

lemma OVERHEATING_THRESHOLD_eq : OVERHEATING_THRESHOLD = 45 := by
  norm_num [OVERHEATING_THRESHOLD]

lemma LOW_HEALTH_THRESHOLD_eq : LOW_HEALTH_THRESHOLD = 80 := by
  norm_num [LOW_HEALTH_THRESHOLD]

/-- C2: the SoH is `0.0` when the nominal capacity is zero (no division by
zero), and otherwise `(current / nominal) * 100` rounded to two decimal
places, with no clamping: out-of-range ratios pass through `round2`
unchanged. -/
theorem calculate_state_of_health_spec (b : BatteryReport) :
    (b.nominal_capacity = 0 → b.calculate_state_of_health = 0) ∧
    (b.nominal_capacity ≠ 0 →
      b.calculate_state_of_health =
        round2 (b.current_capacity / b.nominal_capacity * 100)) := by
  constructor
  · intro h
    simp [BatteryReport.calculate_state_of_health, h]
  · intro h
    simp [BatteryReport.calculate_state_of_health, h]

/-- Witness for C2 at nominal capacity `2`, current capacity `1`. -/
theorem calculate_state_of_health_spec_witness :
    ({ cells := [], cycle_count := 0, nominal_capacity := 2,
       current_capacity := 1 } : BatteryReport).calculate_state_of_health =
      round2 ((1 : ℚ) / 2 * 100) :=
  (calculate_state_of_health_spec _).2 (by norm_num)

/-- C3: `detect_anomalies` is the label/flag association list filtered to
the flags that hold, in the fixed order imbalance, overheating, low
health. -/
theorem detect_anomalies_spec (b : BatteryReport) (soh : ℚ) :
    b.detect_anomalies soh =
      ([("Voltage imbalance detected", b.detect_voltage_imbalance),
        ("Overheating detected", b.detect_overheating),
        ("Low State of Health", b.detect_low_health soh)].filterMap
          fun p => if p.2 then some p.1 else none) := by
  cases hv : b.detect_voltage_imbalance <;>
    cases ho : b.detect_overheating <;>
      cases hl : b.detect_low_health soh <;>
        simp [BatteryReport.detect_anomalies, hv, ho, hl]

/-- C6: `detect_low_health` ignores every field of the snapshot and holds
exactly when the supplied SoH is strictly below `80`. -/
theorem detect_low_health_spec (b b' : BatteryReport) (soh : ℚ) :
    b.detect_low_health soh = b'.detect_low_health soh ∧
    (b.detect_low_health soh = true ↔ soh < 80) := by
  refine ⟨rfl, ?_⟩
  simp [BatteryReport.detect_low_health, LOW_HEALTH_THRESHOLD_eq]

/-- The left fold of `max` over `vs` starting at `v` is an element of
`v :: vs`. -/
lemma foldl_max_mem : ∀ (vs : List ℚ) (v : ℚ), vs.foldl max v ∈ v :: vs
  | [], v => by simp
  | w :: ws, v => by
    rw [List.foldl_cons]
    rcases List.mem_cons.mp (foldl_max_mem ws (max v w)) with h' | h'
    · rcases max_choice v w with hm | hm
      · rw [h', hm]
        exact List.mem_cons_self _ _
      · rw [h', hm]
        exact List.mem_cons_of_mem _ (List.mem_cons_self _ _)
    · exact List.mem_cons_of_mem _ (List.mem_cons_of_mem _ h')

/-- Every element of `v :: vs` is bounded by the left fold of `max`. -/
lemma le_foldl_max : ∀ (vs : List ℚ) (v x : ℚ), x ∈ v :: vs → x ≤ vs.foldl max v
  | [], v, x, hx => by
    simp at hx
    simp [hx]
  | w :: ws, v, x, hx => by
    rw [List.foldl_cons]
    have hstart : max v w ≤ ws.foldl max (max v w) :=
      le_foldl_max ws (max v w) (max v w) (List.mem_cons_self _ _)
    rcases List.mem_cons.mp hx with h' | h'
    · exact le_trans (h' ▸ le_max_left v w) hstart
    · rcases List.mem_cons.mp h' with h'' | h''
      · exact le_trans (h'' ▸ le_max_right v w) hstart
      · exact le_foldl_max ws (max v w) x (List.mem_cons_of_mem _ h'')

/-- The left fold of `min` over `vs` starting at `v` is an element of
`v :: vs`. -/
lemma foldl_min_mem : ∀ (vs : List ℚ) (v : ℚ), vs.foldl min v ∈ v :: vs
  | [], v => by simp
  | w :: ws, v => by
    rw [List.foldl_cons]
    rcases List.mem_cons.mp (foldl_min_mem ws (min v w)) with h' | h'
    · rcases min_choice v w with hm | hm
      · rw [h', hm]
        exact List.mem_cons_self _ _
      · rw [h', hm]
        exact List.mem_cons_of_mem _ (List.mem_cons_self _ _)
    · exact List.mem_cons_of_mem _ (List.mem_cons_of_mem _ h')

/-- The left fold of `min` is a lower bound for `v :: vs`. -/
lemma foldl_min_le : ∀ (vs : List ℚ) (v x : ℚ), x ∈ v :: vs → vs.foldl min v ≤ x
  | [], v, x, hx => by
    simp at hx
    simp [hx]
  | w :: ws, v, x, hx => by
    rw [List.foldl_cons]
    have hstart : ws.foldl min (min v w) ≤ min v w :=
      foldl_min_le ws (min v w) (min v w) (List.mem_cons_self _ _)
    rcases List.mem_cons.mp hx with h' | h'
    · exact le_trans hstart (h' ▸ min_le_left v w)
    · rcases List.mem_cons.mp h' with h'' | h''
      · exact le_trans hstart (h'' ▸ min_le_right v w)
      · exact foldl_min_le ws (min v w) x (List.mem_cons_of_mem _ h'')

/-- The fold computing `max(voltages)` agrees with `List.maximum`. -/
lemma foldl_max_eq_maximum (v : ℚ) (vs : List ℚ) :
    (v :: vs).maximum = (vs.foldl max v : ℚ) :=
  List.maximum_eq_coe_iff.mpr ⟨foldl_max_mem vs v, fun _ ha => le_foldl_max vs v _ ha⟩

/-- The fold computing `min(voltages)` agrees with `List.minimum`. -/
lemma foldl_min_eq_minimum (v : ℚ) (vs : List ℚ) :
    (v :: vs).minimum = (vs.foldl min v : ℚ) :=
  List.minimum_eq_coe_iff.mpr ⟨foldl_min_mem vs v, fun _ ha => foldl_min_le vs v _ ha⟩

/-- C4: no imbalance on an empty cell list; on a nonempty list (where max
and min voltages exist) the detector fires exactly when the voltage spread
strictly exceeds `0.05`, so a spread of exactly `0.05` is not an
imbalance. -/
theorem detect_voltage_imbalance_spec (b : BatteryReport) :
    (b.cells = [] → b.detect_voltage_imbalance = false) ∧
    ∀ M m : ℚ, (b.cells.map fun c => c.voltage).maximum = (M : ℚ) →
      (b.cells.map fun c => c.voltage).minimum = (m : ℚ) →
      (b.detect_voltage_imbalance = true ↔ M - m > (0.05 : ℚ)) := by
  constructor
  · intro h
    simp [BatteryReport.detect_voltage_imbalance, h]
  · intro M m hM hm
    unfold BatteryReport.detect_voltage_imbalance
    cases hc : b.cells.map fun c => c.voltage with
    | nil => rw [hc] at hM; simp at hM
    | cons v vs =>
      rw [hc, foldl_max_eq_maximum] at hM
      rw [hc, foldl_min_eq_minimum] at hm
      have hM' : vs.foldl max v = M := by exact_mod_cast hM
      have hm' : vs.foldl min v = m := by exact_mod_cast hm
      have ht : VOLTAGE_IMBALANCE_THRESHOLD = (0.05 : ℚ) := rfl
      simp [hM', hm', ht]

/-- Witness for C4: two cells at 4 V and 3 V have maximum 4, minimum 3,
and spread 1 V, which exceeds the threshold. -/
theorem detect_voltage_imbalance_spec_witness :
    ({ cells := [⟨4, 25⟩, ⟨3, 25⟩], cycle_count := 0, nominal_capacity := 2,
       current_capacity := 1 } : BatteryReport).detect_voltage_imbalance = true ↔
      (4 : ℚ) - 3 > (0.05 : ℚ) :=
  (detect_voltage_imbalance_spec _).2 4 3
    (by rw [show ([⟨4, 25⟩, ⟨3, 25⟩] : List CellReading).map (fun c => c.voltage) =
          [4, 3] from rfl, foldl_max_eq_maximum]
        norm_num)
    (by rw [show ([⟨4, 25⟩, ⟨3, 25⟩] : List CellReading).map (fun c => c.voltage) =
          [4, 3] from rfl, foldl_min_eq_minimum]
        norm_num)

/-- C5: no overheating on an empty cell list; otherwise the detector fires
exactly when some cell's temperature strictly exceeds `45`, so a cell at
exactly `45` is not overheating. -/
theorem detect_overheating_spec (b : BatteryReport) :
    (b.cells = [] → b.detect_overheating = false) ∧
    (b.detect_overheating = true ↔ ∃ c ∈ b.cells, c.temperature > (45 : ℚ)) := by
  constructor
  · intro h
    simp [BatteryReport.detect_overheating, h]
  · by_cases h : b.cells = []
    · simp [BatteryReport.detect_overheating, h]
    · simp [BatteryReport.detect_overheating, List.isEmpty_iff, h,
        List.any_eq_true, OVERHEATING_THRESHOLD_eq]

/-- Witness for C5: the empty-cells case of the claim at a concrete
snapshot. -/
theorem detect_overheating_spec_witness :
    ({ cells := [], cycle_count := 3, nominal_capacity := 2,
       current_capacity := 1 } : BatteryReport).detect_overheating = false :=
  (detect_overheating_spec _).1 rfl

/-- `List.any` is invariant under permutation. -/
lemma any_eq_of_perm {α : Type} (p : α → Bool) {l₁ l₂ : List α}
    (h : l₁.Perm l₂) : l₁.any p = l₂.any p := by
  cases hb : l₂.any p
  · rw [List.any_eq_false] at hb ⊢
    intro x hx
    exact hb x (h.mem_iff.mp hx)
  · rw [List.any_eq_true] at hb ⊢
    obtain ⟨x, hx, hp⟩ := hb
    exact ⟨x, h.mem_iff.mpr hx, hp⟩

/-- The running `max` of a nonempty list is invariant under permutation. -/
lemma foldl_max_perm {v w : ℚ} {vs ws : List ℚ}
    (h : (v :: vs).Perm (w :: ws)) : vs.foldl max v = ws.foldl max w :=
  le_antisymm
    (le_foldl_max ws w _ (h.mem_iff.mp (foldl_max_mem vs v)))
    (le_foldl_max vs v _ (h.mem_iff.mpr (foldl_max_mem ws w)))

/-- The running `min` of a nonempty list is invariant under permutation. -/
lemma foldl_min_perm {v w : ℚ} {vs ws : List ℚ}
    (h : (v :: vs).Perm (w :: ws)) : vs.foldl min v = ws.foldl min w :=
  le_antisymm
    (foldl_min_le vs v _ (h.mem_iff.mpr (foldl_min_mem ws w)))
    (foldl_min_le ws w _ (h.mem_iff.mp (foldl_min_mem vs v)))

/-- The imbalance detector is invariant under reordering the cells. -/
lemma detect_voltage_imbalance_eq_of_perm (b b' : BatteryReport)
    (hc : b.cells.Perm b'.cells) :
    b.detect_voltage_imbalance = b'.detect_voltage_imbalance := by
  unfold BatteryReport.detect_voltage_imbalance
  have hperm := hc.map fun c => c.voltage
  cases h1 : b.cells.map fun c => c.voltage with
  | nil =>
    rw [h1] at hperm
    rw [hperm.symm.eq_nil]
  | cons v vs =>
    rw [h1] at hperm
    cases h2 : b'.cells.map fun c => c.voltage with
    | nil =>
      rw [h2] at hperm
      exact (List.cons_ne_nil v vs hperm.eq_nil).elim
    | cons w ws =>
      rw [h2] at hperm
      show decide (vs.foldl max v - vs.foldl min v > VOLTAGE_IMBALANCE_THRESHOLD) =
        decide (ws.foldl max w - ws.foldl min w > VOLTAGE_IMBALANCE_THRESHOLD)
      rw [foldl_max_perm hperm, foldl_min_perm hperm]

/-- The overheating detector is invariant under reordering the cells. -/
lemma detect_overheating_eq_of_perm (b b' : BatteryReport)
    (hc : b.cells.Perm b'.cells) :
    b.detect_overheating = b'.detect_overheating := by
  unfold BatteryReport.detect_overheating
  by_cases h : b.cells = []
  · have h' : b'.cells = [] := (h ▸ hc).symm.eq_nil
    rw [h, h']
  · have h' : b'.cells ≠ [] := fun hh => h (hh ▸ hc).eq_nil
    rw [if_neg (by simpa [List.isEmpty_iff] using h),
      if_neg (by simpa [List.isEmpty_iff] using h')]
    exact any_eq_of_perm _ hc

/-- C7: permuting the cells list changes none of the analyzer's results:
both detectors, the SoH, and the whole generated report are unchanged. -/
theorem cell_order_irrelevant (b : BatteryReport) (cells2 : List CellReading)
    (h : b.cells.Perm cells2) :
    ({ b with cells := cells2 }).detect_voltage_imbalance =
      b.detect_voltage_imbalance ∧
    ({ b with cells := cells2 }).detect_overheating = b.detect_overheating ∧
    ({ b with cells := cells2 }).calculate_state_of_health =
      b.calculate_state_of_health ∧
    ({ b with cells := cells2 }).generate_report = b.generate_report := by
  have hperm : ({ b with cells := cells2 } : BatteryReport).cells.Perm b.cells :=
    h.symm
  have h1 := detect_voltage_imbalance_eq_of_perm _ _ hperm
  have h2 := detect_overheating_eq_of_perm _ _ hperm
  refine ⟨h1, h2, rfl, ?_⟩
  unfold BatteryReport.generate_report BatteryReport.detect_anomalies
  rw [h1, h2]
  rfl

/-- Witness for C7: swapping two concrete cells leaves every result
unchanged. -/
theorem cell_order_irrelevant_witness :
    ({ ({ cells := [⟨4, 25⟩, ⟨39, 30⟩], cycle_count := 5, nominal_capacity := 2,
          current_capacity := 1 } : BatteryReport) with
        cells := [⟨39, 30⟩, ⟨4, 25⟩] }).detect_voltage_imbalance =
      ({ cells := [⟨4, 25⟩, ⟨39, 30⟩], cycle_count := 5, nominal_capacity := 2,
         current_capacity := 1 } : BatteryReport).detect_voltage_imbalance ∧
    ({ ({ cells := [⟨4, 25⟩, ⟨39, 30⟩], cycle_count := 5, nominal_capacity := 2,
          current_capacity := 1 } : BatteryReport) with
        cells := [⟨39, 30⟩, ⟨4, 25⟩] }).detect_overheating =
      ({ cells := [⟨4, 25⟩, ⟨39, 30⟩], cycle_count := 5, nominal_capacity := 2,
         current_capacity := 1 } : BatteryReport).detect_overheating ∧
    ({ ({ cells := [⟨4, 25⟩, ⟨39, 30⟩], cycle_count := 5, nominal_capacity := 2,
          current_capacity := 1 } : BatteryReport) with
        cells := [⟨39, 30⟩, ⟨4, 25⟩] }).calculate_state_of_health =
      ({ cells := [⟨4, 25⟩, ⟨39, 30⟩], cycle_count := 5, nominal_capacity := 2,
         current_capacity := 1 } : BatteryReport).calculate_state_of_health ∧
    ({ ({ cells := [⟨4, 25⟩, ⟨39, 30⟩], cycle_count := 5, nominal_capacity := 2,
          current_capacity := 1 } : BatteryReport) with
        cells := [⟨39, 30⟩, ⟨4, 25⟩] }).generate_report =
      ({ cells := [⟨4, 25⟩, ⟨39, 30⟩], cycle_count := 5, nominal_capacity := 2,
         current_capacity := 1 } : BatteryReport).generate_report :=
  cell_order_irrelevant _ _ (List.Perm.swap _ _ _)

/-- C8: `vehicle_id` and `timestamp` never influence the report, and
`cycle_count` influences only the report's `cycle_count` field: snapshots
agreeing on cells and capacities produce the same SoH and anomalies, and
if they also agree on the cycle count the whole reports coincide. -/
theorem generate_report_ignores_metadata (d1 d2 : DiagnosticData)
    (hc : d1.cells = d2.cells)
    (hn : d1.nominal_capacity_kwh = d2.nominal_capacity_kwh)
    (hcur : d1.current_capacity_kwh = d2.current_capacity_kwh) :
    (d1.cycle_count = d2.cycle_count →
      (BatteryReport.ofData d1).generate_report =
        (BatteryReport.ofData d2).generate_report) ∧
    (BatteryReport.ofData d1).generate_report.battery_soh =
      (BatteryReport.ofData d2).generate_report.battery_soh ∧
    (BatteryReport.ofData d1).generate_report.anomalies =
      (BatteryReport.ofData d2).generate_report.anomalies := by
  have key : BatteryReport.ofData d1 =
      { BatteryReport.ofData d2 with cycle_count := d1.cycle_count.getD 0 } := by
    simp [BatteryReport.ofData, hc, hn, hcur]
  refine ⟨fun hcy => ?_, ?_, ?_⟩
  · rw [key, hcy]
    rfl
  · rw [key]
    rfl
  · rw [key]
    rfl

/-- Witness for C8: two snapshots differing only in vehicle id and
timestamp yield identical reports. -/
theorem generate_report_ignores_metadata_witness :
    (BatteryReport.ofData
        ⟨"EV-10000", "2024-01-01T00:00:00Z", some [⟨4, 25⟩], some 5, some 2,
          some 1⟩).generate_report =
      (BatteryReport.ofData
        ⟨"EV-99999", "2025-06-30T12:00:00Z", some [⟨4, 25⟩], some 5, some 2,
          some 1⟩).generate_report :=
  (generate_report_ignores_metadata _ _ rfl rfl rfl).1 rfl

/-- C9: each of the four optional entries defaults (cells to `[]`, the
numeric entries to `0`) when absent, with no error; a snapshot missing all
four yields SoH `0.0`, cycle count `0`, and exactly the low-health
anomaly. -/
theorem missing_fields_default (d : DiagnosticData) :
    BatteryReport.ofData { d with cells := none } =
      BatteryReport.ofData { d with cells := some [] } ∧
    BatteryReport.ofData { d with cycle_count := none } =
      BatteryReport.ofData { d with cycle_count := some 0 } ∧
    BatteryReport.ofData { d with nominal_capacity_kwh := none } =
      BatteryReport.ofData { d with nominal_capacity_kwh := some 0 } ∧
    BatteryReport.ofData { d with current_capacity_kwh := none } =
      BatteryReport.ofData { d with current_capacity_kwh := some 0 } ∧
    ∀ v t : String,
      (BatteryReport.ofData ⟨v, t, none, none, none, none⟩).generate_report =
        { battery_soh := 0, cycle_count := 0,
          anomalies := ["Low State of Health"] } := by
  refine ⟨rfl, rfl, rfl, rfl, fun v t => ?_⟩
  have hlh : ∀ b : BatteryReport, b.detect_low_health 0 = true := by
    intro b
    unfold BatteryReport.detect_low_health
    rw [LOW_HEALTH_THRESHOLD_eq]
    norm_num
  simp [BatteryReport.ofData, BatteryReport.generate_report,
    BatteryReport.calculate_state_of_health, BatteryReport.detect_anomalies,
    BatteryReport.detect_voltage_imbalance, BatteryReport.detect_overheating,
    hlh]

/-- C10: every anomaly list (and hence the `anomalies` field of every
report) is a subsequence of the fixed three-label list: at most three
elements, no duplicates, every element one of the three strings. -/
theorem detect_anomalies_sublist (b : BatteryReport) (soh : ℚ) :
    (b.detect_anomalies soh).Sublist
      ["Voltage imbalance detected", "Overheating detected",
        "Low State of Health"] ∧
    (b.detect_anomalies soh).length ≤ 3 ∧
    (b.detect_anomalies soh).Nodup ∧
    (∀ x ∈ b.detect_anomalies soh,
      x ∈ ["Voltage imbalance detected", "Overheating detected",
        "Low State of Health"]) ∧
    b.generate_report.anomalies.Sublist
      ["Voltage imbalance detected", "Overheating detected",
        "Low State of Health"] := by
  have key : ∀ s : ℚ, (b.detect_anomalies s).Sublist
      ["Voltage imbalance detected", "Overheating detected",
        "Low State of Health"] := by
    intro s
    unfold BatteryReport.detect_anomalies
    cases b.detect_voltage_imbalance <;> cases b.detect_overheating <;>
      cases b.detect_low_health s <;> simp
  have hnd : (["Voltage imbalance detected", "Overheating detected",
      "Low State of Health"] : List String).Nodup := by decide
  refine ⟨key soh, ?_, hnd.sublist (key soh), fun x hx => (key soh).subset hx,
    key _⟩
  simpa using (key soh).length_le

/-- Witness for C10: on a snapshot with no cells and zero capacities the
anomaly list contains the low-health label, which is indeed one of the
three fixed labels. -/
theorem detect_anomalies_sublist_witness :
    "Low State of Health" ∈
      ["Voltage imbalance detected", "Overheating detected",
        "Low State of Health"] :=
  (detect_anomalies_sublist
      { cells := [], cycle_count := 0, nominal_capacity := 0,
        current_capacity := 0 } 0).2.2.2.1 "Low State of Health"
    (by norm_num [BatteryReport.detect_anomalies,
      BatteryReport.detect_voltage_imbalance, BatteryReport.detect_overheating,
      BatteryReport.detect_low_health, LOW_HEALTH_THRESHOLD_eq])
